import Mathlib

/-!
# Shallow embedding of Calva's nREPL connection logic (second file of `src/src/lsp.ts`)

The repository's connect module manages one shared mutable connection state
(session role slots `clj` / `cljs` / `cljc`, `connected` / `connecting` flags,
the selected `cljsBuild`, hostname/port) and orchestrates ClojureScript REPL
bring-up through pluggable strategies driven by `evalConnectCode`.

The embedding below models:
* strings in the output path as `List Char` (so ANSI escape bytes are explicit);
* the shared state as an explicit `ConnState` record threaded through every
  modelled function;
* nREPL sessions as numeric ids, `session.clone()` as drawing the next id from
  a counter in the state;
* a completed evaluation as an `EvalRun` — the ordered stdout/stderr chunks it
  produced and its final value (`none` when the value promise rejected);
* JavaScript exceptions as `Except JsErr`; since state mutations made before a
  throw survive the throw, fallible modelled functions return
  `Except JsErr α × ConnState` rather than `Except JsErr (α × ConnState)`.
-/

/-- Strings on the evaluation output path, as explicit character lists. -/
abbrev JStr := List Char

/-- The ANSI escape byte 0x1B. -/
def escChar : Char := Char.ofNat 27

/-- Whether a character is the ANSI escape byte. -/
def isEscByte (c : Char) : Bool := c = escChar

/-- Modelled from the spec: `util.stripAnsi` lives in `src/utilities.ts`, which
is not included under `src/`.  The spec constrains it only by "the stripped
text delivered to predicates and processors contains no escape bytes", so
stripping is modelled as removal of the escape bytes of ANSI escape
sequences. -/
def stripAnsi (s : JStr) : JStr := s.filter (fun c => !(isEscByte c))

/-- A string "contains no escape bytes". -/
def noEscBytes (s : JStr) : Bool := s.all (fun c => !(isEscByte c))

/-- Which stream a chunk of evaluation output arrived on. -/
inductive OutKind
  | stdout
  | stderr
deriving DecidableEq

/-- What one evaluation produced: its output chunks in arrival order, and the
final value — `none` models the value promise rejecting (the evaluation threw;
`evalConnectCode` catches this, logs it, and proceeds with `undefined`). -/
structure EvalRun where
  chunks : List (OutKind × JStr)
  value : Option JStr
deriving DecidableEq

/-- JavaScript exceptions that the modelled code can raise. -/
inductive JsErr
  /-- a strategy routine threw before reaching `evalConnectCode`
  (e.g. `throw "Aborted"` after a dismissed prompt). -/
  | aborted
  /-- calling a method on `undefined` (e.g. `undefined.search(...)`). -/
  | typeError
deriving DecidableEq

deriving instance DecidableEq for Except

/-- A success predicate (`checkConnectedFn` in the source): it receives the
final value (`none` = JavaScript `undefined`, which is what the `.catch`
handler yields when the evaluation threw) and the accumulated stdout/stderr
line lists.  JavaScript predicates may themselves throw, hence `Except`; a
normal return is coerced to a boolean at `evalConnectCode`'s `if`, so the
result is modelled post-coercion as `Bool`. -/
abbrev CheckFn := Option JStr → List JStr → List JStr → Except JsErr Bool

/-- The shared mutable connection state (`state.cursor` slots plus the module
globals of the connect file that the claims are about). -/
structure ConnState where
  /-- the `clj` session role slot. -/
  clj : Option Nat
  /-- the `cljs` session role slot. -/
  cljs : Option Nat
  /-- the `cljc` session role slot. -/
  cljc : Option Nat
  /-- the `connected` flag. -/
  connected : Bool
  /-- the `connecting` flag. -/
  connecting : Bool
  /-- the `cljsBuild` setting. -/
  cljsBuild : Option String
  /-- the stored `hostname`. -/
  hostname : Option JStr
  /-- the stored `port` (the parsed number on the prompt path). -/
  port : Option Rat
  /-- whether `nClient.close()` has been invoked on the existing client. -/
  clientClosed : Bool
  /-- clone counter: the id the next `session.clone()` returns. -/
  nextSession : Nat
deriving DecidableEq

/-- The stdout/stderr handlers that `evalConnectCode` installs, folded over the
chunks of a run.  Returns `(out, err, deliveredToProcessors)`:

* a stdout chunk `x` is first handed raw to every registered output processor
  (`for (const p of outputProcessors) p(x)` — the source passes `x`, not
  `util.stripAnsi(x)`), then `util.stripAnsi(x)` is pushed onto `out`;
* a stderr chunk `x` has `util.stripAnsi(x)` pushed onto `err`; the stderr
  handler contains no processor loop.

`procs` models whether `outputProcessors` was passed (the `if
(outputProcessors)` guard); `deliveredToProcessors` is the list of chunk texts
on which every registered processor was invoked, in order. -/
def evalConnectOutputs (procs : Bool) :
    List (OutKind × JStr) → List JStr × List JStr × List JStr
  | [] => ([], [], [])
  | (OutKind.stdout, x) :: rest =>
      let acc := evalConnectOutputs procs rest
      (stripAnsi x :: acc.1, acc.2.1, (if procs then [x] else []) ++ acc.2.2)
  | (OutKind.stderr, x) :: rest =>
      let acc := evalConnectOutputs procs rest
      (acc.1, stripAnsi x :: acc.2.1, acc.2.2)

/-- The function `evalConnectCode` (source lines 505–533): evaluate the connect code on the
new cljs session, accumulating output per `evalConnectOutputs`; await the
value, catching a rejection into `undefined`; call `checkSuccess` with the
value and the accumulated lists.  On a truthy predicate result, set the shared
`cljs` slot to the session evaluated on and return `true`; on a falsy result
return `false`; a predicate exception propagates with the state unchanged. -/
def evalConnectCode (st : ConnState) (newCljsSession : Nat) (run : EvalRun)
    (checkSuccess : CheckFn) (procs : Bool) : Except JsErr Bool × ConnState :=
  let acc := evalConnectOutputs procs run.chunks
  match checkSuccess run.value acc.1 acc.2.1 with
  | .error e => (.error e, st)
  | .ok true => (.ok true, { st with cljs := some newCljsSession })
  | .ok false => (.ok false, st)

/-- JavaScript `x.search(pat) >= 0` for the plain-text patterns used by the
registered predicates (none of them contains a regex metacharacter): the
pattern occurs as a contiguous substring. -/
def jsSearchFound (pat s : JStr) : Bool := decide (pat <:+: s)

/-- The "Figwheel Main" strategy's `started` predicate (source lines 565–570):
some stdout line contains "Prompt will show", or some stderr line contains
"already running".  (`err != undefined` is always true — `err` is the
accumulated array; `.find(...) != undefined` is membership; the JavaScript
`||`/`&&` value is coerced to a boolean at `evalConnectCode`'s `if`.) -/
def figwheelMainStarted : CheckFn := fun _result out err =>
  .ok (out.any (fun x => jsSearchFound "Prompt will show".data x)
    || err.any (fun x => jsSearchFound "already running".data x))

/-- The "shadow-cljs" strategy's `connected` predicate (source lines 639–641):
`result.search(/:selected/) >= 0`.  When `result` is `undefined` (the
evaluation threw and the `.catch` handler yielded no value), calling `.search`
on it throws a `TypeError`. -/
def shadowCljsConnected : CheckFn := fun result _out _err =>
  match result with
  | none => .error .typeError
  | some v => .ok (jsSearchFound ":selected".data v)

/-- What a strategy's `start`/`connect` routine does before and at its
`evalConnectCode` call.  Every built-in and custom routine either throws before
evaluating (a dismissed prompt / no figwheel files: `throw "Aborted"`), or
stores a build selection into the `cljsBuild` setting (each routine writes it:
a chosen build, or `null` for the build-less types) and then runs
`evalConnectCode`; the evaluation's outcome is the routine's `EvalRun`. -/
inductive ConnectStepBehavior
  /-- the routine threw before reaching `evalConnectCode`. -/
  | aborted
  /-- the routine set `cljsBuild := buildSet` and ran `evalConnectCode`,
  whose evaluation produced `run`. -/
  | ran (buildSet : Option String) (run : EvalRun)
deriving DecidableEq

/-- A REPL type strategy (`ReplType` in the source), with the behavior of its
routines for one connection attempt.  `hasStart` models the
`repl.start != undefined` field-presence check; `connectProcs` models whether
the connect routine passes output processors to `evalConnectCode` (the start
routines never do). -/
structure StrategyModel where
  hasStart : Bool
  startBehavior : ConnectStepBehavior
  startPred : CheckFn
  connectBehavior : ConnectStepBehavior
  connectPred : CheckFn
  connectProcs : Bool

/-- Run one strategy routine (start or connect) on the given cloned session. -/
def runConnectStep (st : ConnState) (session : Nat) (beh : ConnectStepBehavior)
    (pred : CheckFn) (procs : Bool) : Except JsErr Bool × ConnState :=
  match beh with
  | .aborted => (.error .aborted, st)
  | .ran buildSet run =>
      evalConnectCode { st with cljsBuild := buildSet } session run pred procs

/-- The connect half of `makeCljsSessionClone` (source lines 733–748): run the
strategy's `connect` routine on `sess`; on success set the shared `cljs` slot
to `sess` (again — `evalConnectCode` already did) and return `[sess, null]`;
on failure clear `cljsBuild` and return `[null, null]`. -/
def makeCljsSessionCloneConnectPhase (strat : StrategyModel) (sess : Nat)
    (st : ConnState) : Except JsErr (Option Nat × Option Nat) × ConnState :=
  match runConnectStep st sess strat.connectBehavior strat.connectPred
      strat.connectProcs with
  | (.error e, st2) => (.error e, st2)
  | (.ok true, st2) => (.ok (some sess, none), { st2 with cljs := some sess })
  | (.ok false, st2) => (.ok (none, none), { st2 with cljsBuild := none })

/-- The function `makeCljsSessionClone` (source lines 709–749): clone the clj session; if
the strategy has a `start` routine, run it on the clone — on `start` resolving
`false`, clear `cljsBuild` and return `[null, null]`; on `start` resolving
`true`, discard that clone and take a fresh clone for the connect phase; a
`start` exception propagates.  Then run the connect phase on the current
clone. -/
def makeCljsSessionClone (strat : StrategyModel) (st : ConnState) :
    Except JsErr (Option Nat × Option Nat) × ConnState :=
  let sess1 := st.nextSession
  let st1 := { st with nextSession := st.nextSession + 1 }
  if strat.hasStart then
    match runConnectStep st1 sess1 strat.startBehavior strat.startPred false with
    | (.error e, st2) => (.error e, st2)
    | (.ok false, st2) => (.ok (none, none), { st2 with cljsBuild := none })
    | (.ok true, st2) =>
        let sess2 := st2.nextSession
        let st3 := { st2 with nextSession := st2.nextSession + 1 }
        makeCljsSessionCloneConnectPhase strat sess2 st3
  else
    makeCljsSessionCloneConnectPhase strat sess1 st1

/-- The ClojureScript phase of `connectToHost` (source lines 429–441): when a
cljs type was selected, call `makeCljsSessionClone` inside `try`/`catch` — any
exception is caught and logged, keeping the state the bootstrap left behind;
when it returned a session, `setUpCljsRepl` stores it in the `cljs` slot. -/
def connectToHostCljsPhase (strat : Option StrategyModel) (st : ConnState) :
    ConnState :=
  match strat with
  | none => st
  | some s =>
    match makeCljsSessionClone s st with
    | (.error _, st2) => st2
    | (.ok (some sess, _), st2) => { st2 with cljs := some sess }
    | (.ok (none, _), st2) => st2

/-- The tail of `connectToHost` after the physical connection succeeded (source lines
420–441): set `connected := true`, `connecting := false`, bind the base
session to the `clj` and `cljc` roles, then run the ClojureScript phase. -/
def connectToHostAfterConnect (cljSess : Nat) (strat : Option StrategyModel)
    (st : ConnState) : ConnState :=
  connectToHostCljsPhase strat
    { st with connected := true, connecting := false,
              clj := some cljSess, cljc := some cljSess }

/-- The `disconnect` member of the default export (source lines 854–864): set
`clj` and `cljs` to `null`, `connected` to `false`, `cljc` to `null`, then
close the client. -/
def disconnect (st : ConnState) : ConnState :=
  { st with clj := none, cljs := none, connected := false, cljc := none,
            clientClosed := true }

/-- The close handler registered by `connectToHost` via
`nClient.addOnCloseHandler` (source lines 406–412): set `connected := false`
and `connecting := false` (and, unless the close was silent, log a line). -/
def onCloseHandler (st : ConnState) : ConnState :=
  { st with connected := false, connecting := false }

/-- The function `toggleCLJCSession` (source lines 866–877).  Modelled from the spec for the
slot reads: `util.getSession` lives in `src/utilities.ts`, not under `src/`;
per the spec the shared state "holds three named slots — clj, cljs, cljc", and
`getSession` reads the named slot.  JavaScript `==` between two `null` slots is
true, matching equality on `Option Nat`. -/
def toggleCLJCSession (st : ConnState) : ConnState :=
  if st.connected then
    if st.cljc = st.cljs then { st with cljc := st.clj }
    else if st.cljc = st.clj then { st with cljc := st.cljs }
    else st
  else st

/-- JavaScript `url.split(':')`: split on every colon, keeping empty pieces
(`"".split(':')` is `[""]`). -/
def splitOnColon : JStr → List JStr
  | [] => [[]]
  | c :: rest =>
    let r := splitOnColon rest
    if c = ':' then [] :: r
    else
      match r with
      | [] => [[c]]
      | h :: t => (c :: h) :: t

/-- Decimal digits to a natural number. -/
def digitsToNat (ds : List Char) : Nat :=
  ds.foldl (fun acc c => acc * 10 + (c.toNat - '0'.toNat)) 0

/-- The exponent suffix of a JavaScript float literal, starting right after the
mantissa: `e`/`E`, optional sign, digits; an incomplete suffix contributes
nothing (JavaScript `parseFloat("1e")` is `1`). -/
def parseFloatExp (cs : List Char) : Int :=
  match cs with
  | c :: rest =>
    if c = 'e' ∨ c = 'E' then
      match rest with
      | '-' :: ds =>
          if ds.takeWhile Char.isDigit = [] then 0
          else -(digitsToNat (ds.takeWhile Char.isDigit) : Int)
      | '+' :: ds =>
          if ds.takeWhile Char.isDigit = [] then 0
          else (digitsToNat (ds.takeWhile Char.isDigit) : Int)
      | ds =>
          if ds.takeWhile Char.isDigit = [] then 0
          else (digitsToNat (ds.takeWhile Char.isDigit) : Int)
    else 0
  | [] => 0

/-- The syntactic pieces of a JavaScript float literal prefix: sign, integer
digits, fraction digits, exponent value. -/
structure FloatParts where
  sign : Int
  intPart : List Char
  fracPart : List Char
  expPart : Int
deriving DecidableEq

/-- The syntactic stage of the JavaScript builtin `parseFloat` (not repository
code), modelled for the inputs the port prompt can see: skip leading
whitespace, optional sign, decimal digits with an optional fraction and
exponent, parsing the longest valid prefix; `none` models `NaN` (no digit at
all).  The `Infinity` literal is not modelled — it maps to `none`, and both
`NaN` and `Infinity` reach the same rejection branch of the caller (`NaN` is
falsy, `Infinity < 65536` is false). -/
def parseFloatParts (s : JStr) : Option FloatParts :=
  let cs := s.dropWhile Char.isWhitespace
  let signAndRest : Int × List Char :=
    match cs with
    | '-' :: rest => (-1, rest)
    | '+' :: rest => (1, rest)
    | _ => (1, cs)
  let sign := signAndRest.1
  let cs1 := signAndRest.2
  let intPart := cs1.takeWhile Char.isDigit
  let cs2 := cs1.dropWhile Char.isDigit
  let fracAndRest : List Char × List Char :=
    match cs2 with
    | '.' :: rest => (rest.takeWhile Char.isDigit, rest.dropWhile Char.isDigit)
    | _ => ([], cs2)
  let fracPart := fracAndRest.1
  let cs3 := fracAndRest.2
  if intPart = [] ∧ fracPart = [] then none
  else some ⟨sign, intPart, fracPart, parseFloatExp cs3⟩

/-- The numeric value of parsed float pieces. -/
def partsToRat (p : FloatParts) : Rat :=
  (p.sign : Rat)
    * ((digitsToNat p.intPart : Rat)
        + (digitsToNat p.fracPart : Rat) / ((10 : Rat) ^ p.fracPart.length))
    * (10 : Rat) ^ p.expPart

/-- JavaScript `parseFloat`: the numeric value of the parsed prefix, `none`
for `NaN`. -/
def parseFloat (s : JStr) : Option Rat := (parseFloatParts s).map partsToRat

/-- The port parse of `promptForNreplUrlAndConnect`:
`parseFloat(url.split(':')[1])`, where a missing second piece is `undefined`
and `parseFloat(undefined)` is `NaN` (`none`). -/
def promptParsedPort (u : JStr) : Option Rat :=
  match (splitOnColon u)[1]? with
  | none => none
  | some p => parseFloat p

/-- The function `promptForNreplUrlAndConnect` (source lines 751–779), up to the
`connectToHost` boundary.  `url` is the input-box result (`none` = dismissed).
The first component is the `(hostname, parsedPort)` pair `connectToHost` is
invoked with, or `none` when it is not invoked.  The source destructures
`url.split(':')` into `[hostname, port]` (`port` is `undefined` when there is
no colon; `parseFloat(undefined)` is `NaN`), computes
`parsedPort = parseFloat(port)`, and connects only under
`parsedPort && parsedPort > 0 && parsedPort < 65536` (for a number,
`parsedPort` is truthy iff it is neither `0` nor `NaN`, which `> 0` already
implies); on that path it first stores `hostname` and `parsedPort` in the
shared state.  Every other path logs `"Bad url"` or nothing, sets
`connecting := false`, and touches nothing else — in particular it never
closes the existing client. -/
def promptForNreplUrlAndConnect (url : Option JStr) (st : ConnState) :
    Option (JStr × Rat) × ConnState :=
  match url with
  | none => (none, { st with connecting := false })
  | some u =>
    let parts := splitOnColon u
    let hostname := parts.headD []
    match promptParsedPort u with
    | some p =>
      if 0 < p ∧ p < 65536 then
        (some (hostname, p),
         { st with hostname := some hostname, port := some p })
      else (none, { st with connecting := false })
    | none => (none, { st with connecting := false })

/-- The project marker file names of `initProjectDir` (source line 351). -/
def projectFileNames : List String := ["project.clj", "shadow-cljs.edn", "deps.edn"]

/-- The inner `for`/`break` of `initProjectDir`: whether some marker file
exists in directory `d` (the filesystem is abstracted as the oracle `ex`,
modelling `fs.existsSync(path.resolve(d, name))`). -/
def hasProjectFile (ex : List String → String → Bool) (d : List String) : Bool :=
  projectFileNames.any (fun m => ex d m)

set_option linter.unusedVariables false in
/-- The `while` loop of `initProjectDir` (source lines 363–376).  Directories
are component lists (`[]` is the filesystem root; `path.resolve(d, "..")` drops
the last component, and at the root yields the root again — the source's
`prev` bookkeeping makes the loop exit after one iteration at a fixed point,
which is exactly the `d = []` case below).  Each iteration: if some marker
exists in `d`, `rootPath := d`; if `d == rootPath`, stop; else step to the
parent. -/
def projectRootLoop (ex : List String → String → Bool)
    (rootPath d : List String) : List String :=
  let newRoot := if hasProjectFile ex d then d else rootPath
  if d = newRoot then newRoot
  else if h : d = [] then newRoot
  else projectRootLoop ex newRoot d.dropLast
termination_by d.length
decreasing_by
  cases d with
  | nil => exact absurd rfl h
  | cons a as => simp [List.length_dropLast]

/-- The function `initProjectDir` (source lines 350–379), given an open document inside a
workspace folder: `rootPath` starts at the workspace folder root, the walk
starts at the document's directory (`path.dirname` drops the file component),
and the resulting directory is stored as the project root. -/
def initProjectDir (ex : List String → String → Bool)
    (wsRoot docPath : List String) : List String :=
  projectRootLoop ex wsRoot docPath.dropLast

/-- The "Figwheel Main" strategy's `connected` predicate (source lines
588–590): some stdout line contains the quit hint. -/
def figwheelMainConnected : CheckFn := fun _result out _err =>
  .ok (out.any (fun x => jsSearchFound "To quit, type: :cljs/quit".data x))

/-- A baseline concrete state for closed examples. -/
def st0 : ConnState :=
  { clj := none, cljs := none, cljc := none, connected := false,
    connecting := false, cljsBuild := none, hostname := none, port := none,
    clientClosed := false, nextSession := 0 }

/-- A concrete connected state: base session 1 bound to `clj` and `cljc`,
session 2 bound to `cljs`. -/
def stLive : ConnState :=
  { st0 with clj := some 1, cljs := some 2, cljc := some 1, connected := true,
             nextSession := 3 }

/-- A stdout chunk carrying an ANSI color sequence: `"\x1b[31mReady"`. -/
def ansiChunk : JStr := escChar :: "[31mReady".data

/-- A run whose single stdout chunk carries an ANSI escape sequence. -/
def ansiRun : EvalRun :=
  { chunks := [(OutKind.stdout, ansiChunk)], value := some "ok".data }

/-- One stdout chunk and one stderr chunk. -/
def mixedChunks : List (OutKind × JStr) :=
  [(OutKind.stdout, "A".data), (OutKind.stderr, "B".data)]

/-- A run whose evaluation threw: stderr carried an error line, the value
promise rejected. -/
def throwRun : EvalRun :=
  { chunks := [(OutKind.stderr, "Execution error".data)], value := none }

/-- A run that produced a clean value and no ready marker. -/
def failRun : EvalRun := { chunks := [], value := some "nil".data }

/-- A run whose stdout contains the Figwheel Main ready marker. -/
def promptRun : EvalRun :=
  { chunks := [(OutKind.stdout, "Prompt will show when ready".data)],
    value := some "nil".data }

/-- A run whose stdout contains the Figwheel Main quit hint. -/
def quitRun : EvalRun :=
  { chunks := [(OutKind.stdout, "To quit, type: :cljs/quit".data)],
    value := some "nil".data }

/-- A Figwheel-Main-shaped strategy whose `start` evaluation produces no ready
marker (the `started` predicate resolves `false`). -/
def stratStartFails : StrategyModel :=
  { hasStart := true, startBehavior := .ran (some "dev") failRun,
    startPred := figwheelMainStarted,
    connectBehavior := .ran (some "dev") quitRun,
    connectPred := figwheelMainConnected, connectProcs := false }

/-- A Figwheel-Main-shaped strategy whose `start` succeeds and whose `connect`
prompt is dismissed (the routine throws before evaluating). -/
def stratStartOkConnectAborts : StrategyModel :=
  { hasStart := true, startBehavior := .ran (some "dev") promptRun,
    startPred := figwheelMainStarted,
    connectBehavior := .aborted,
    connectPred := figwheelMainConnected, connectProcs := false }

/-- A Figwheel-Main-shaped strategy whose `start` and `connect` both
succeed. -/
def stratStartOkConnectOk : StrategyModel :=
  { hasStart := true, startBehavior := .ran (some "dev") promptRun,
    startPred := figwheelMainStarted,
    connectBehavior := .ran (some "dev") quitRun,
    connectPred := figwheelMainConnected, connectProcs := false }

/-- A filesystem oracle with `deps.edn` in `/repo` and no other marker. -/
def exDepsAtRepo : List String → String → Bool :=
  fun d m => d = ["repo"] ∧ m = "deps.edn"

/-- A filesystem oracle with no marker file anywhere. -/
def exNoMarkers : List String → String → Bool := fun _ _ => false

/-! ## Helper lemmas -/

theorem noEscBytes_stripAnsi (s : JStr) : noEscBytes (stripAnsi s) = true := by
  simp only [noEscBytes, stripAnsi, List.all_eq_true]
  intro c hc
  exact (List.mem_filter.mp hc).2

theorem evalConnectOutputs_out_noEsc (procs : Bool)
    (chunks : List (OutKind × JStr)) :
    ∀ s ∈ (evalConnectOutputs procs chunks).1, noEscBytes s = true := by
  induction chunks with
  | nil => intro s hs; simp [evalConnectOutputs] at hs
  | cons c rest ih =>
    obtain ⟨k, x⟩ := c
    cases k with
    | stdout =>
      intro s hs
      simp only [evalConnectOutputs, List.mem_cons] at hs
      rcases hs with h | h
      · subst h; exact noEscBytes_stripAnsi x
      · exact ih s h
    | stderr =>
      intro s hs
      simp only [evalConnectOutputs] at hs
      exact ih s hs

theorem evalConnectOutputs_err_noEsc (procs : Bool)
    (chunks : List (OutKind × JStr)) :
    ∀ s ∈ (evalConnectOutputs procs chunks).2.1, noEscBytes s = true := by
  induction chunks with
  | nil => intro s hs; simp [evalConnectOutputs] at hs
  | cons c rest ih =>
    obtain ⟨k, x⟩ := c
    cases k with
    | stdout =>
      intro s hs
      simp only [evalConnectOutputs] at hs
      exact ih s hs
    | stderr =>
      intro s hs
      simp only [evalConnectOutputs, List.mem_cons] at hs
      rcases hs with h | h
      · subst h; exact noEscBytes_stripAnsi x
      · exact ih s h

theorem evalConnectOutputs_delivered (chunks : List (OutKind × JStr)) :
    (evalConnectOutputs true chunks).2.2 =
      chunks.filterMap (fun c =>
        match c with
        | (OutKind.stdout, x) => some x
        | (OutKind.stderr, _) => none) := by
  induction chunks with
  | nil => rfl
  | cons c rest ih =>
    obtain ⟨k, x⟩ := c
    cases k <;> simp [evalConnectOutputs, List.filterMap_cons, ih]

theorem evalConnectOutputs_delivered_none (chunks : List (OutKind × JStr)) :
    (evalConnectOutputs false chunks).2.2 = [] := by
  induction chunks with
  | nil => rfl
  | cons c rest ih =>
    obtain ⟨k, x⟩ := c
    cases k <;> simp [evalConnectOutputs, ih]

theorem evalConnectOutputs_err_eq (procs : Bool)
    (chunks : List (OutKind × JStr)) :
    (evalConnectOutputs procs chunks).2.1 =
      (chunks.filterMap (fun c =>
        match c with
        | (OutKind.stderr, x) => some x
        | (OutKind.stdout, _) => none)).map stripAnsi := by
  induction chunks with
  | nil => rfl
  | cons c rest ih =>
    obtain ⟨k, x⟩ := c
    cases k <;> simp [evalConnectOutputs, List.filterMap_cons, ih]

theorem evalConnectCode_state_cases (st : ConnState) (sess : Nat)
    (run : EvalRun) (check : CheckFn) (procs : Bool) :
    (evalConnectCode st sess run check procs).2 = st
    ∨ (evalConnectCode st sess run check procs).2
        = { st with cljs := some sess } := by
  unfold evalConnectCode
  cases h : check run.value (evalConnectOutputs procs run.chunks).1
      (evalConnectOutputs procs run.chunks).2.1 with
  | error e => left; simp [h]
  | ok b =>
    cases b with
    | true => right; simp [h]
    | false => left; simp [h]

theorem evalConnectCode_frame (st : ConnState) (sess : Nat) (run : EvalRun)
    (check : CheckFn) (procs : Bool) :
    (evalConnectCode st sess run check procs).2.clj = st.clj
    ∧ (evalConnectCode st sess run check procs).2.cljc = st.cljc
    ∧ (evalConnectCode st sess run check procs).2.connected = st.connected
    ∧ (evalConnectCode st sess run check procs).2.connecting = st.connecting
    ∧ (evalConnectCode st sess run check procs).2.nextSession = st.nextSession
    ∧ (evalConnectCode st sess run check procs).2.clientClosed
        = st.clientClosed := by
  rcases evalConnectCode_state_cases st sess run check procs with h | h <;>
    rw [h] <;> simp

theorem runConnectStep_frame (st : ConnState) (sess : Nat)
    (beh : ConnectStepBehavior) (pred : CheckFn) (procs : Bool) :
    (runConnectStep st sess beh pred procs).2.clj = st.clj
    ∧ (runConnectStep st sess beh pred procs).2.cljc = st.cljc
    ∧ (runConnectStep st sess beh pred procs).2.connected = st.connected
    ∧ (runConnectStep st sess beh pred procs).2.connecting = st.connecting
    ∧ (runConnectStep st sess beh pred procs).2.nextSession = st.nextSession
    ∧ (runConnectStep st sess beh pred procs).2.clientClosed
        = st.clientClosed := by
  cases beh with
  | aborted => simp [runConnectStep]
  | ran buildSet run =>
    have h := evalConnectCode_frame { st with cljsBuild := buildSet } sess run
      pred procs
    simpa [runConnectStep] using h

theorem makeCljsSessionCloneConnectPhase_frame (strat : StrategyModel)
    (sess : Nat) (st : ConnState) :
    (makeCljsSessionCloneConnectPhase strat sess st).2.clj = st.clj
    ∧ (makeCljsSessionCloneConnectPhase strat sess st).2.cljc = st.cljc
    ∧ (makeCljsSessionCloneConnectPhase strat sess st).2.connected
        = st.connected
    ∧ (makeCljsSessionCloneConnectPhase strat sess st).2.connecting
        = st.connecting
    ∧ (makeCljsSessionCloneConnectPhase strat sess st).2.clientClosed
        = st.clientClosed := by
  have hf := runConnectStep_frame st sess strat.connectBehavior
    strat.connectPred strat.connectProcs
  rcases hr : runConnectStep st sess strat.connectBehavior strat.connectPred
      strat.connectProcs with ⟨r, st2⟩
  rw [hr] at hf
  rcases r with e | b
  · simp only [makeCljsSessionCloneConnectPhase, hr]
    exact ⟨hf.1, hf.2.1, hf.2.2.1, hf.2.2.2.1, hf.2.2.2.2.2⟩
  · cases b <;> simp only [makeCljsSessionCloneConnectPhase, hr] <;>
      exact ⟨hf.1, hf.2.1, hf.2.2.1, hf.2.2.2.1, hf.2.2.2.2.2⟩

theorem makeCljsSessionClone_frame (strat : StrategyModel) (st : ConnState) :
    (makeCljsSessionClone strat st).2.clj = st.clj
    ∧ (makeCljsSessionClone strat st).2.cljc = st.cljc
    ∧ (makeCljsSessionClone strat st).2.connected = st.connected
    ∧ (makeCljsSessionClone strat st).2.connecting = st.connecting
    ∧ (makeCljsSessionClone strat st).2.clientClosed = st.clientClosed := by
  by_cases hs : strat.hasStart
  · have hf := runConnectStep_frame { st with nextSession := st.nextSession + 1 }
      st.nextSession strat.startBehavior strat.startPred false
    rcases hr : runConnectStep { st with nextSession := st.nextSession + 1 }
        st.nextSession strat.startBehavior strat.startPred false with ⟨r, st2⟩
    rw [hr] at hf
    rcases r with e | b
    · simp only [makeCljsSessionClone, hs, if_true, hr]
      exact ⟨hf.1, hf.2.1, hf.2.2.1, hf.2.2.2.1, hf.2.2.2.2.2⟩
    · cases b with
      | false =>
        simp only [makeCljsSessionClone, hs, if_true, hr]
        exact ⟨hf.1, hf.2.1, hf.2.2.1, hf.2.2.2.1, hf.2.2.2.2.2⟩
      | true =>
        have hf2 := makeCljsSessionCloneConnectPhase_frame strat
          st2.nextSession { st2 with nextSession := st2.nextSession + 1 }
        simp only [makeCljsSessionClone, hs, if_true, hr]
        exact ⟨hf2.1.trans hf.1, hf2.2.1.trans hf.2.1,
          hf2.2.2.1.trans hf.2.2.1, hf2.2.2.2.1.trans hf.2.2.2.1,
          hf2.2.2.2.2.trans hf.2.2.2.2.2⟩
  · have hf := makeCljsSessionCloneConnectPhase_frame strat st.nextSession
      { st with nextSession := st.nextSession + 1 }
    simp only [makeCljsSessionClone, hs, if_false]
    exact ⟨hf.1, hf.2.1, hf.2.2.1, hf.2.2.2.1, hf.2.2.2.2⟩

theorem connectToHostCljsPhase_frame (strat : Option StrategyModel)
    (st : ConnState) :
    (connectToHostCljsPhase strat st).clj = st.clj
    ∧ (connectToHostCljsPhase strat st).cljc = st.cljc
    ∧ (connectToHostCljsPhase strat st).connected = st.connected := by
  cases strat with
  | none => simp [connectToHostCljsPhase]
  | some s =>
    have hf := makeCljsSessionClone_frame s st
    rcases hr : makeCljsSessionClone s st with ⟨r, st2⟩
    rw [hr] at hf
    rcases r with e | ⟨sessOpt, other⟩
    · simp only [connectToHostCljsPhase, hr]
      exact ⟨hf.1, hf.2.1, hf.2.2.1⟩
    · cases sessOpt <;> simp only [connectToHostCljsPhase, hr] <;>
        exact ⟨hf.1, hf.2.1, hf.2.2.1⟩

theorem runConnectStep_ran_ok_true (st : ConnState) (sess : Nat)
    (bs : Option String) (run : EvalRun) (pred : CheckFn) (procs : Bool)
    (h : pred run.value (evalConnectOutputs procs run.chunks).1
        (evalConnectOutputs procs run.chunks).2.1 = .ok true) :
    runConnectStep st sess (.ran bs run) pred procs =
      (.ok true, { st with cljsBuild := bs, cljs := some sess }) := by
  simp only [runConnectStep, evalConnectCode, h]

theorem runConnectStep_ran_ok_false (st : ConnState) (sess : Nat)
    (bs : Option String) (run : EvalRun) (pred : CheckFn) (procs : Bool)
    (h : pred run.value (evalConnectOutputs procs run.chunks).1
        (evalConnectOutputs procs run.chunks).2.1 = .ok false) :
    runConnectStep st sess (.ran bs run) pred procs =
      (.ok false, { st with cljsBuild := bs }) := by
  simp only [runConnectStep, evalConnectCode, h]

theorem parseFloat_3000_5 :
    parseFloat "3000.5".data = some ((6001 : Rat) / 2) := by
  have h : parseFloatParts "3000.5".data
      = some ⟨1, ['3', '0', '0', '0'], ['5'], 0⟩ := by decide
  have h1 : digitsToNat ['3', '0', '0', '0'] = 3000 := by decide
  have h2 : digitsToNat ['5'] = 5 := by decide
  simp only [parseFloat, h, Option.map_some]
  norm_num [partsToRat, h1, h2]

theorem parseFloat_3000 :
    parseFloat "3000".data = some ((3000 : Rat)) := by
  have h : parseFloatParts "3000".data
      = some ⟨1, ['3', '0', '0', '0'], [], 0⟩ := by decide
  have h1 : digitsToNat ['3', '0', '0', '0'] = 3000 := by decide
  have h2 : digitsToNat ([] : List Char) = 0 := by decide
  simp only [parseFloat, h, Option.map_some]
  norm_num [partsToRat, h1, h2]

theorem projectRootLoop_marker (ex : List String → String → Bool)
    (rootPath d : List String) (h : hasProjectFile ex d = true) :
    projectRootLoop ex rootPath d = d := by
  unfold projectRootLoop
  simp [h]

theorem projectRootLoop_at_root (ex : List String → String → Bool)
    (rootPath : List String) :
    projectRootLoop ex rootPath rootPath = rootPath := by
  unfold projectRootLoop
  by_cases h : hasProjectFile ex rootPath = true <;> simp [h]

theorem projectRootLoop_step (ex : List String → String → Bool)
    (rootPath d : List String) (h : hasProjectFile ex d = false)
    (hne : d ≠ rootPath) (hnil : d ≠ []) :
    projectRootLoop ex rootPath d = projectRootLoop ex rootPath d.dropLast := by
  conv_lhs => rw [projectRootLoop]
  simp [h, hne, hnil]

theorem projectRootLoop_nil (ex : List String → String → Bool)
    (rootPath : List String) (h : hasProjectFile ex [] = false) :
    projectRootLoop ex rootPath [] = rootPath := by
  unfold projectRootLoop
  by_cases hne : ([] : List String) = rootPath <;> simp [h, hne]

theorem projectRootLoop_noMarker (ex : List String → String → Bool)
    (hno : ∀ d, hasProjectFile ex d = false) :
    ∀ (n : Nat) (rootPath d : List String), d.length ≤ n →
      projectRootLoop ex rootPath d = rootPath := by
  intro n
  induction n with
  | zero =>
    intro rootPath d hd
    have hdn : d = [] := List.eq_nil_of_length_eq_zero (Nat.le_zero.mp hd)
    subst hdn
    exact projectRootLoop_nil ex rootPath (hno [])
  | succ n ih =>
    intro rootPath d hd
    by_cases hne : d = rootPath
    · subst hne; exact projectRootLoop_at_root ex d
    · by_cases hnil : d = []
      · subst hnil; exact projectRootLoop_nil ex rootPath (hno [])
      · rw [projectRootLoop_step ex rootPath d (hno d) hne hnil]
        apply ih
        have hlt := List.length_dropLast d
        omega

theorem isPrefix_dropLast {α : Type} {ws d : List α} (hpre : ws <+: d)
    (hne : ws ≠ d) : ws <+: d.dropLast := by
  obtain ⟨t, ht⟩ := hpre
  cases t with
  | nil => exact absurd (by simpa using ht) hne
  | cons b t2 =>
    refine ⟨(b :: t2).dropLast, ?_⟩
    rw [← List.dropLast_append_cons, ht]

theorem projectRootLoop_bounded (ex : List String → String → Bool)
    (ws : List String) (hno : ∀ d, ws <+: d → hasProjectFile ex d = false) :
    ∀ (n : Nat) (d : List String), d.length ≤ n → ws <+: d →
      projectRootLoop ex ws d = ws := by
  intro n
  induction n with
  | zero =>
    intro d hd hpre
    have hdn : d = [] := List.eq_nil_of_length_eq_zero (Nat.le_zero.mp hd)
    subst hdn
    have hws : ws = [] := List.prefix_nil.mp hpre
    subst hws
    exact projectRootLoop_at_root ex []
  | succ n ih =>
    intro d hd hpre
    by_cases hne : d = ws
    · subst hne; exact projectRootLoop_at_root ex d
    · have hnil : d ≠ [] := by
        intro hdn
        subst hdn
        exact hne (List.prefix_nil.mp hpre).symm
      rw [projectRootLoop_step ex ws d (hno d hpre) (Ne.symm (fun a => hne a.symm)) hnil]
      refine ih d.dropLast ?_ (isPrefix_dropLast hpre (fun a => hne a.symm))
      have hlt := List.length_dropLast d
      omega

/-! ## Claim theorems -/

/-- C1 (counterexample): the claim "the text delivered to every output
processor contains no escape bytes" is false at a concrete input.  For an
evaluation whose single stdout chunk is `"\x1b[31mReady"`, the text delivered
to the registered output processors is exactly that raw chunk, and it contains
an escape byte — `evalConnectCode` runs the processors on `x` before
`util.stripAnsi(x)` is applied. -/
theorem c1_processors_get_raw_cex :
    (evalConnectOutputs true ansiRun.chunks).2.2 = [ansiChunk]
    ∧ noEscBytes ansiChunk = false := by
  constructor
  · decide
  · decide

/-- C1 (amended): for every stdout or stderr chunk produced during an
`evalConnectCode` evaluation, ANSI escape sequences are stripped before the
accumulated `out`/`err` line lists passed to the success predicate — those
lists contain no escape bytes — but each registered output processor receives
the raw stdout chunk, unstripped (and only stdout chunks are delivered). -/
theorem c1_strip_before_buffering (procs : Bool)
    (chunks : List (OutKind × JStr)) :
    (∀ s ∈ (evalConnectOutputs procs chunks).1, noEscBytes s = true)
    ∧ (∀ s ∈ (evalConnectOutputs procs chunks).2.1, noEscBytes s = true)
    ∧ (evalConnectOutputs true chunks).2.2 =
        chunks.filterMap (fun c =>
          match c with
          | (OutKind.stdout, x) => some x
          | (OutKind.stderr, _) => none) :=
  ⟨evalConnectOutputs_out_noEsc procs chunks,
   evalConnectOutputs_err_noEsc procs chunks,
   evalConnectOutputs_delivered chunks⟩

/-- C1 (witness): the amended theorem applied to the concrete ANSI run — the
stripped chunk buffered into `out` contains no escape bytes. -/
theorem c1_strip_before_buffering_wit :
    noEscBytes (stripAnsi ansiChunk) = true :=
  (c1_strip_before_buffering true ansiRun.chunks).1 (stripAnsi ansiChunk)
    (by decide)

/-- C6 (counterexample): the claim "every registered output processor is run on
every chunk of output, both stdout chunks and stderr chunks" is false at a
concrete input: with processors registered and chunks stdout `"A"` then stderr
`"B"`, the processors are run only on `"A"`; the stderr chunk `"B"` is
accumulated into `err` but never delivered to a processor. -/
theorem c6_stderr_no_processors_cex :
    (evalConnectOutputs true mixedChunks).2.2 = ["A".data]
    ∧ "B".data ∉ (evalConnectOutputs true mixedChunks).2.2
    ∧ (evalConnectOutputs true mixedChunks).2.1 = ["B".data] := by
  refine ⟨by decide, by decide, by decide⟩

/-- C6 (amended): during an `evalConnectCode` evaluation, every registered
output processor is run on every stdout chunk (in order, receiving the raw
chunk); stderr chunks are stripped and appended to the `err` list but are not
delivered to any processor; with no processors registered nothing is
delivered. -/
theorem c6_processors_stdout_only (chunks : List (OutKind × JStr)) :
    (evalConnectOutputs true chunks).2.2 =
      chunks.filterMap (fun c =>
        match c with
        | (OutKind.stdout, x) => some x
        | (OutKind.stderr, _) => none)
    ∧ (evalConnectOutputs false chunks).2.2 = []
    ∧ (evalConnectOutputs true chunks).2.1 =
        (chunks.filterMap (fun c =>
          match c with
          | (OutKind.stderr, x) => some x
          | (OutKind.stdout, _) => none)).map stripAnsi :=
  ⟨evalConnectOutputs_delivered chunks,
   evalConnectOutputs_delivered_none chunks,
   evalConnectOutputs_err_eq true chunks⟩

/-- C5 (counterexample): the claim "evalConnectCode returns the predicate's
result … for every registered strategy's predicate, including the shadow-cljs
connected predicate" is false at a concrete input: for an evaluation that
threw (value promise rejected), the caught value is `undefined`, and the
shadow-cljs `connected` predicate calls `.search` on it — `evalConnectCode`
raises a `TypeError` instead of returning a boolean. -/
theorem c5_shadow_pred_throws_cex :
    (evalConnectCode st0 7 throwRun shadowCljsConnected false).1
      = .error .typeError := by decide

/-- C5 (amended): if the evaluation run by `evalConnectCode` throws, the error
is caught and logged and the success predicate is still invoked — with the
`undefined` value and the stdout/stderr line lists accumulated up to the
failure point — and `evalConnectCode` returns whatever the predicate call
produces: the predicate's result when it returns one, or the exception the
predicate itself raises (as the shadow-cljs connected predicate does on the
`undefined` value). -/
theorem c5_eval_throw_predicate (st : ConnState) (sess : Nat) (run : EvalRun)
    (check : CheckFn) (procs : Bool) (hv : run.value = none) :
    (evalConnectCode st sess run check procs).1 =
      check none (evalConnectOutputs procs run.chunks).1
        (evalConnectOutputs procs run.chunks).2.1 := by
  unfold evalConnectCode
  rw [hv]
  cases h : check none (evalConnectOutputs procs run.chunks).1
      (evalConnectOutputs procs run.chunks).2.1 with
  | error e => simp [h]
  | ok b => cases b <;> simp [h]

/-- C5 (witness): the amended theorem applied to a concrete throwing run and
the Figwheel Main `started` predicate, which tolerates the `undefined` value:
`evalConnectCode` returns its (falsy) result. -/
theorem c5_eval_throw_predicate_wit :
    (evalConnectCode st0 5 throwRun figwheelMainStarted false).1
      = .ok false := by
  rw [c5_eval_throw_predicate st0 5 throwRun figwheelMainStarted false rfl]
  decide

/-- C3 (counterexample): the claim "on every transition to Disconnected … the
shared state slots clj, cljs, and cljc and the connected flag are all cleared"
is false at a concrete input: when the registered close handler fires on an
unexpected Connection close of a live connection, it clears only the
`connected`/`connecting` flags — the `clj`, `cljs`, and `cljc` slots keep
their sessions. -/
theorem c3_close_handler_keeps_sessions_cex :
    (onCloseHandler stLive).connected = false
    ∧ (onCloseHandler stLive).clj = some 1
    ∧ (onCloseHandler stLive).cljs = some 2
    ∧ (onCloseHandler stLive).cljc = some 1 :=
  ⟨rfl, rfl, rfl, rfl⟩

/-- C3 (amended): an explicit `disconnect` call clears `clj`, `cljs`, `cljc`
and the connected flag; the close handler that fires on an unexpected
Connection close clears only the `connected` and `connecting` flags, leaving
the `clj`, `cljs`, and `cljc` slots untouched. -/
theorem c3_disconnect_clears (st : ConnState) :
    (disconnect st).clj = none
    ∧ (disconnect st).cljs = none
    ∧ (disconnect st).cljc = none
    ∧ (disconnect st).connected = false
    ∧ (onCloseHandler st).connected = false
    ∧ (onCloseHandler st).connecting = false
    ∧ (onCloseHandler st).clj = st.clj
    ∧ (onCloseHandler st).cljs = st.cljs
    ∧ (onCloseHandler st).cljc = st.cljc :=
  ⟨rfl, rfl, rfl, rfl, rfl, rfl, rfl, rfl, rfl⟩

/-- C7: for the Figwheel Main (build-tool-with-multiple-builds) strategy,
whenever some accumulated stderr line contains "already running", the
`started` predicate returns true — regardless of the stdout lines, in
particular when no stdout line contains the ready marker. -/
theorem c7_already_running_success (result : Option JStr)
    (out err : List JStr) (line : JStr) (hmem : line ∈ err)
    (hsub : "already running".data <:+: line) :
    figwheelMainStarted result out err = .ok true := by
  unfold figwheelMainStarted
  have ha : err.any (fun x => jsSearchFound "already running".data x) = true :=
    List.any_eq_true.mpr ⟨line, hmem, by simpa [jsSearchFound] using hsub⟩
  simp [ha]

/-- C7 (witness): the theorem applied to the spec's scenario — stderr line
`"Build already running"`, empty stdout. -/
theorem c7_already_running_success_wit :
    figwheelMainStarted (some "nil".data) []
      ["Build already running".data] = .ok true :=
  c7_already_running_success (some "nil".data) []
    ["Build already running".data] "Build already running".data
    (by decide) (by decide)

/-- C8: when the connected flag is set, toggling while `cljc` aliases the same
session as `cljs` rebinds `cljc` to the `clj` session, and toggling while
`cljc` aliases the same session as `clj` rebinds it to the `cljs` session;
when the connected flag is unset the toggle changes nothing; and the toggle
preserves the invariant that `cljc` aliases either the `clj` or the `cljs`
session. -/
theorem c8_toggle_cljc (st : ConnState) :
    (st.connected = true →
      (st.cljc = st.cljs → (toggleCLJCSession st).cljc = st.clj)
      ∧ (st.cljc = st.clj → (toggleCLJCSession st).cljc = st.cljs))
    ∧ (st.connected = false → toggleCLJCSession st = st)
    ∧ ((st.cljc = st.clj ∨ st.cljc = st.cljs) →
        ((toggleCLJCSession st).cljc = (toggleCLJCSession st).clj
          ∨ (toggleCLJCSession st).cljc = (toggleCLJCSession st).cljs)) := by
  refine ⟨fun hc => ⟨fun h1 => ?_, fun h2 => ?_⟩, fun hc => ?_, fun halias => ?_⟩
  · simp [toggleCLJCSession, hc, h1]
  · by_cases h1 : st.cljc = st.cljs
    · simp only [toggleCLJCSession, hc, if_true, h1, if_pos rfl]
      rw [← h2, h1]
    · unfold toggleCLJCSession
      rw [if_pos hc, if_neg h1, if_pos h2]
  · simp [toggleCLJCSession, hc]
  · by_cases hc : st.connected
    · by_cases h1 : st.cljc = st.cljs
      · left; simp [toggleCLJCSession, hc, h1]
      · by_cases h2 : st.cljc = st.clj
        · right
          unfold toggleCLJCSession
          rw [if_pos hc, if_neg h1, if_pos h2]
        · rcases halias with h | h
          · exact absurd h h2
          · exact absurd h h1
    · rcases halias with h | h
      · left; simpa [toggleCLJCSession, hc] using h
      · right; simpa [toggleCLJCSession, hc] using h

/-- C8 (witness): the theorem applied to a concrete connected state where
`cljc` aliases `clj` (session 1): after toggling, `cljc` aliases `cljs`
(session 2). -/
theorem c8_toggle_cljc_wit : (toggleCLJCSession stLive).cljc = some 2 :=
  (((c8_toggle_cljc stLive).1 rfl).2 rfl).trans rfl

/-- C2 (counterexample): the claim "only a port parsing as an integer in
(0, 65536) leads to connecting" is false at a concrete input: for the entered
url `"localhost:3000.5"` the port component is `"3000.5"`, which does not
parse as an integer (its value `6001/2` has denominator 2), yet the source's
`parseFloat` accepts it and `connectToHost` is invoked with
`("localhost", 3000.5)`. -/
theorem c2_nonint_port_connects_cex :
    (splitOnColon "localhost:3000.5".data)[1]? = some "3000.5".data
    ∧ parseFloat "3000.5".data = some ((6001 : Rat) / 2)
    ∧ ((6001 : Rat) / 2).den = 2
    ∧ ¬(∃ n : ℤ, ((6001 : Rat) / 2) = (n : Rat))
    ∧ (promptForNreplUrlAndConnect (some "localhost:3000.5".data) st0).1
        = some ("localhost".data, (6001 : Rat) / 2) := by
  have hden : ((6001 : Rat) / 2).den = 2 := by norm_num
  have hsplit : (splitOnColon "localhost:3000.5".data)[1]?
      = some "3000.5".data := by decide
  refine ⟨hsplit, parseFloat_3000_5, hden, ?_, ?_⟩
  · rintro ⟨n, hn⟩
    have h1 : ((n : Rat)).den = 1 := Rat.den_intCast n
    rw [← hn, hden] at h1
    exact absurd h1 (by norm_num)
  · have hp : promptParsedPort "localhost:3000.5".data
        = some ((6001 : Rat) / 2) := by
      simp only [promptParsedPort, hsplit]
      exact parseFloat_3000_5
    have hh : (splitOnColon "localhost:3000.5".data).headD ([] : JStr)
        = "localhost".data := by decide
    simp only [promptForNreplUrlAndConnect, hp, hh]
    rw [if_pos (by norm_num)]

/-- C2 (amended): in `promptForNreplUrlAndConnect`, `connectToHost` is invoked
exactly when `parseFloat` of the port component yields a number strictly
between 0 and 65536 — integrality is not required (the source uses
`parseFloat`, not an integer parse).  On every other entered url the attempt
fails: `connectToHost` is not called, the `connecting` flag is reset, and the
state is otherwise untouched — in particular no existing connection is
closed. -/
theorem c2_port_validation (u : JStr) (st : ConnState) :
    (∀ p : Rat, promptParsedPort u = some p → 0 < p → p < 65536 →
      (promptForNreplUrlAndConnect (some u) st).1
          = some ((splitOnColon u).headD [], p)
      ∧ (promptForNreplUrlAndConnect (some u) st).2
          = { st with hostname := some ((splitOnColon u).headD []),
                      port := some p })
    ∧ ((∀ p : Rat, promptParsedPort u = some p → ¬(0 < p ∧ p < 65536)) →
      (promptForNreplUrlAndConnect (some u) st).1 = none
      ∧ (promptForNreplUrlAndConnect (some u) st).2
          = { st with connecting := false }) := by
  constructor
  · intro p hp h0 h65
    simp only [promptForNreplUrlAndConnect, hp]
    rw [if_pos ⟨h0, h65⟩]
    exact ⟨rfl, rfl⟩
  · intro hbad
    cases hp : promptParsedPort u with
    | none =>
      constructor
      · simp [promptForNreplUrlAndConnect, hp]
      · simp [promptForNreplUrlAndConnect, hp]
    | some p =>
      simp only [promptForNreplUrlAndConnect, hp]
      rw [if_neg (hbad p hp)]
      exact ⟨rfl, rfl⟩

/-- C2 (witness): the amended theorem applied to the entered url
`"localhost:3000"`: `connectToHost` is invoked with hostname `"localhost"`
and port 3000. -/
theorem c2_port_validation_wit :
    (promptForNreplUrlAndConnect (some "localhost:3000".data) st0).1
      = some ("localhost".data, (3000 : Rat)) := by
  have hp : promptParsedPort "localhost:3000".data = some ((3000 : Rat)) := by
    have hsplit : (splitOnColon "localhost:3000".data)[1]?
        = some "3000".data := by decide
    simp only [promptParsedPort, hsplit]
    exact parseFloat_3000
  have h := ((c2_port_validation "localhost:3000".data st0).1 3000 hp
    (by norm_num) (by norm_num)).1
  rw [h]
  have hh : (splitOnColon "localhost:3000".data).headD ([] : JStr)
      = "localhost".data := by decide
  rw [hh]


/-- C4: for a strategy with a start routine, if the start step fails (`start`
resolves `false` — its evaluation ran and the `started` predicate rejected),
`makeCljsSessionClone` returns `[null, null]`, clears the `cljsBuild` setting,
and leaves the `clj`/`cljc` slots, the connected flag, and the `cljs` slot
untouched; and `connectToHost` catches any ClojureScript bootstrap outcome —
for every strategy and state, after the Clojure phase the connected flag stays
true and `clj`/`cljc` stay bound to the base session. -/
theorem c4_start_failure_policy (strat : StrategyModel) (st : ConnState)
    (bs : Option String) (srun : EvalRun)
    (hs : strat.hasStart = true)
    (hb : strat.startBehavior = .ran bs srun)
    (hp : strat.startPred srun.value (evalConnectOutputs false srun.chunks).1
        (evalConnectOutputs false srun.chunks).2.1 = .ok false) :
    ((makeCljsSessionClone strat st).1 = .ok (none, none)
      ∧ (makeCljsSessionClone strat st).2.cljsBuild = none
      ∧ (makeCljsSessionClone strat st).2.clj = st.clj
      ∧ (makeCljsSessionClone strat st).2.cljc = st.cljc
      ∧ (makeCljsSessionClone strat st).2.connected = st.connected
      ∧ (makeCljsSessionClone strat st).2.cljs = st.cljs)
    ∧ (∀ (strat2 : StrategyModel) (st2 : ConnState) (cljSess : Nat),
        (connectToHostAfterConnect cljSess (some strat2) st2).connected = true
        ∧ (connectToHostAfterConnect cljSess (some strat2) st2).clj
            = some cljSess
        ∧ (connectToHostAfterConnect cljSess (some strat2) st2).cljc
            = some cljSess) := by
  constructor
  · have hstep := runConnectStep_ran_ok_false
      { st with nextSession := st.nextSession + 1 } st.nextSession bs srun
      strat.startPred false hp
    rw [← hb] at hstep
    simp [makeCljsSessionClone, hs, hstep]
  · intro strat2 st2 cljSess
    have hf := connectToHostCljsPhase_frame (some strat2)
      { st2 with connected := true, connecting := false,
                 clj := some cljSess, cljc := some cljSess }
    unfold connectToHostAfterConnect
    exact ⟨hf.2.2, hf.1, hf.2.1⟩

/-- C4 (witness): the theorem applied to a concrete Figwheel-Main-shaped
strategy whose start evaluation produced no ready marker: the clone operation
yields `[null, null]` and the `cljsBuild` setting is cleared. -/
theorem c4_start_failure_policy_wit :
    (makeCljsSessionClone stratStartFails st0).1 = .ok (none, none)
    ∧ (makeCljsSessionClone stratStartFails st0).2.cljsBuild = none :=
  ⟨((c4_start_failure_policy stratStartFails st0 (some "dev") failRun rfl rfl
      (by decide)).1).1,
   ((c4_start_failure_policy stratStartFails st0 (some "dev") failRun rfl rfl
      (by decide)).1).2.1⟩

/-- C10: whenever the success predicate passed to `evalConnectCode` produces a
truthy result, `evalConnectCode` itself sets the shared `cljs` slot to the
session it evaluated on; in particular, inside `makeCljsSessionClone`, a
successful `start` step leaves the `cljs` slot pointing at the pre-start clone
(observable when the subsequent connect routine aborts), and that clone is
then discarded: the connect step runs on a fresh clone (a different session
id), which on success replaces the pre-start clone in the `cljs` slot. -/
theorem c10_evalConnect_sets_cljs (st : ConnState) (sess : Nat)
    (run : EvalRun) (check : CheckFn) (procs : Bool)
    (h : check run.value (evalConnectOutputs procs run.chunks).1
        (evalConnectOutputs procs run.chunks).2.1 = .ok true) :
    ((evalConnectCode st sess run check procs).1 = .ok true
      ∧ (evalConnectCode st sess run check procs).2.cljs = some sess)
    ∧ (∀ (strat : StrategyModel) (st2 : ConnState) (bs : Option String)
          (srun : EvalRun),
        strat.hasStart = true →
        strat.startBehavior = .ran bs srun →
        strat.startPred srun.value (evalConnectOutputs false srun.chunks).1
            (evalConnectOutputs false srun.chunks).2.1 = .ok true →
        strat.connectBehavior = .aborted →
        (makeCljsSessionClone strat st2).2.cljs = some st2.nextSession
        ∧ (makeCljsSessionClone strat st2).1 = .error .aborted)
    ∧ (∀ (strat : StrategyModel) (st2 : ConnState) (bs cbs : Option String)
          (srun crun : EvalRun),
        strat.hasStart = true →
        strat.startBehavior = .ran bs srun →
        strat.startPred srun.value (evalConnectOutputs false srun.chunks).1
            (evalConnectOutputs false srun.chunks).2.1 = .ok true →
        strat.connectBehavior = .ran cbs crun →
        strat.connectPred crun.value
            (evalConnectOutputs strat.connectProcs crun.chunks).1
            (evalConnectOutputs strat.connectProcs crun.chunks).2.1
          = .ok true →
        (makeCljsSessionClone strat st2).1
            = .ok (some (st2.nextSession + 1), none)
        ∧ (makeCljsSessionClone strat st2).2.cljs
            = some (st2.nextSession + 1)
        ∧ st2.nextSession + 1 ≠ st2.nextSession) := by
  refine ⟨?_, ?_, ?_⟩
  · constructor
    · simp only [evalConnectCode, h]
    · simp only [evalConnectCode, h]
  · intro strat st2 bs srun hs hb hp hc
    have hstart := runConnectStep_ran_ok_true
      { st2 with nextSession := st2.nextSession + 1 } st2.nextSession bs srun
      strat.startPred false hp
    rw [← hb] at hstart
    have e1 : makeCljsSessionClone strat st2
        = makeCljsSessionCloneConnectPhase strat (st2.nextSession + 1)
            { st2 with cljsBuild := bs, cljs := some st2.nextSession,
                       nextSession := st2.nextSession + 1 + 1 } := by
      simp [makeCljsSessionClone, hs, hstart]
    rw [e1]
    simp [makeCljsSessionCloneConnectPhase, hc, runConnectStep]
  · intro strat st2 bs cbs srun crun hs hb hp hc hq
    have hstart := runConnectStep_ran_ok_true
      { st2 with nextSession := st2.nextSession + 1 } st2.nextSession bs srun
      strat.startPred false hp
    rw [← hb] at hstart
    have e1 : makeCljsSessionClone strat st2
        = makeCljsSessionCloneConnectPhase strat (st2.nextSession + 1)
            { st2 with cljsBuild := bs, cljs := some st2.nextSession,
                       nextSession := st2.nextSession + 1 + 1 } := by
      simp [makeCljsSessionClone, hs, hstart]
    have hconn := runConnectStep_ran_ok_true
      { st2 with cljsBuild := bs, cljs := some st2.nextSession,
                 nextSession := st2.nextSession + 1 + 1 }
      (st2.nextSession + 1) cbs crun strat.connectPred strat.connectProcs hq
    rw [← hc] at hconn
    rw [e1]
    refine ⟨?_, ?_, Nat.succ_ne_self st2.nextSession⟩
    · simp [makeCljsSessionCloneConnectPhase, hconn]
    · simp [makeCljsSessionCloneConnectPhase, hconn]

/-- C10 (witness): the theorem applied to concrete inputs.  The predicate
succeeds on the ready-marker run, so `evalConnectCode` binds `cljs` to the
session it evaluated on (9); and for the concrete strategy whose start
succeeds and whose connect aborts, the `cljs` slot afterwards holds the
pre-start clone (session 0 of the fresh counter). -/
theorem c10_evalConnect_sets_cljs_wit :
    (evalConnectCode st0 9 promptRun figwheelMainStarted false).2.cljs
        = some 9
    ∧ (makeCljsSessionClone stratStartOkConnectAborts st0).2.cljs
        = some 0 := by
  have h := c10_evalConnect_sets_cljs st0 9 promptRun figwheelMainStarted
    false (by decide)
  exact ⟨h.1.2, (h.2.1 stratStartOkConnectAborts st0 (some "dev") promptRun
    rfl rfl (by decide) rfl).1⟩

/-- C9: `initProjectDir` walks parent directories upward from the open
document's directory, bounded by the workspace folder root, and stores the
first directory containing one of the project-marker files; if no marker is
found it stores the workspace folder root unchanged.  Conjuncts: (i) the
spec's scenario — document `/repo/sub/core.clj`, `deps.edn` at `/repo`,
workspace root `/repo` — resolves to `/repo`; (ii) with no marker anywhere the
workspace root is stored unchanged; (iii) a marker in the document's own
directory makes that directory the root (the first directory checked wins);
(iv) boundedness — when the document directory lies under the workspace root
and no directory at or below the workspace root subtree has a marker, the walk
stops at the workspace root and stores it, regardless of markers outside the
bound. -/
theorem c9_project_root :
    (initProjectDir exDepsAtRepo ["repo"] ["repo", "sub", "core.clj"]
        = ["repo"])
    ∧ (∀ (ex : List String → String → Bool) (ws doc : List String),
        (∀ d, hasProjectFile ex d = false) → initProjectDir ex ws doc = ws)
    ∧ (∀ (ex : List String → String → Bool) (ws doc : List String),
        hasProjectFile ex doc.dropLast = true →
        initProjectDir ex ws doc = doc.dropLast)
    ∧ (∀ (ex : List String → String → Bool) (ws doc : List String),
        ws <+: doc.dropLast →
        (∀ d, ws <+: d → hasProjectFile ex d = false) →
        initProjectDir ex ws doc = ws) := by
  refine ⟨?_, ?_, ?_, ?_⟩
  · have h1 : hasProjectFile exDepsAtRepo ["repo", "sub"] = false := by decide
    have hdl : (["repo", "sub", "core.clj"] : List String).dropLast
        = ["repo", "sub"] := by decide
    unfold initProjectDir
    rw [hdl,
      projectRootLoop_step exDepsAtRepo ["repo"] ["repo", "sub"] h1
        (by decide) (by decide)]
    have hdl2 : (["repo", "sub"] : List String).dropLast = ["repo"] := by
      decide
    rw [hdl2]
    exact projectRootLoop_at_root exDepsAtRepo ["repo"]
  · intro ex ws doc hno
    exact projectRootLoop_noMarker ex hno doc.dropLast.length ws doc.dropLast
      (Nat.le_refl _)
  · intro ex ws doc hm
    exact projectRootLoop_marker ex ws doc.dropLast hm
  · intro ex ws doc hpre hno
    exact projectRootLoop_bounded ex ws hno doc.dropLast.length doc.dropLast
      (Nat.le_refl _) hpre

/-- C9 (witness): the theorem's first-directory conjunct applied to a concrete
input — the document's own directory `/repo` holds `deps.edn`, so it becomes
the project root even for workspace root `/w`. -/
theorem c9_project_root_wit :
    initProjectDir exDepsAtRepo ["w"] ["repo", "core.clj"] = ["repo"] :=
  c9_project_root.2.2.1 exDepsAtRepo ["w"] ["repo", "core.clj"] (by decide)
